import Mathlib

/-!
Verification of the event extraction & normalization pipeline of
`print_schedule.py` (functions `resolve_attendee_name` and
`get_events_for_date`, plus the small string helpers they use).

The embedding below is a direct shallow translation of the Python source:

* Python strings are lists of Unicode code points (`PyStr`).
* `datetime`/`date` values are modelled by `DTValue`: a calendar date is a
  day ordinal, a naive datetime is a wall-clock minute count, an aware
  datetime is a wall-clock minute count together with a UTC-offset in
  minutes (so its instant is `wall - off`).
* The per-event `try`/`except` block is modelled by `parseEvent` returning
  `Option EventData`; the only operation in the modelled fragment that can
  raise is the duration subtraction `end - start` (a `TypeError` when the
  two values have incompatible kinds), so `subDT` is partial-as-`Option`
  and its failure aborts just that event.
* Python's stable `list.sort(key=...)` is `List.mergeSort` with the
  boolean `≤`-on-keys relation.
-/

namespace PrintSchedule

/-- Python strings, modelled as their sequence of code points. -/
abbrev PyStr := List Char

/-- Python `str.lower()` (ASCII case mapping, which is what the addresses in
this program use). -/
def pyLower (s : PyStr) : PyStr := s.map Char.toLower

/-- Python `str.strip()`: trim whitespace from both ends. -/
def pyStrip (s : PyStr) : PyStr :=
  ((s.dropWhile Char.isWhitespace).reverse.dropWhile Char.isWhitespace).reverse

/-- The literal `"mailto:"` tested by `str.startswith('mailto:')`. -/
def mailtoLC : PyStr := "mailto:".toList

/-- The literal `"MAILTO:"` (upper-case variant, used in statements about
case-sensitivity of the stripping). -/
def mailtoUC : PyStr := "MAILTO:".toList

/-- `s[7:] if s.startswith('mailto:') else s` — the (case-sensitive) scheme
stripping used at lines 445-447, 503-506, 514-517 and 531-534 of
`print_schedule.py`. -/
def stripMailto (s : PyStr) : PyStr :=
  if mailtoLC.isPrefixOf s then s.drop 7 else s

/-- A raw `DTSTART`/`DTEND` value: a `date` (day ordinal), a naive
`datetime` (wall-clock minutes, no tzinfo) or an aware `datetime`
(wall-clock minutes plus UTC offset in minutes). -/
inductive DTValue where
  | date (d : Int)
  | naive (wall : Int)
  | aware (wall : Int) (off : Int)
deriving DecidableEq, Repr

/-- The instant of an aware value, in minutes since the epoch. -/
def DTValue.instant : DTValue → Int
  | .date d => d * 1440
  | .naive w => w
  | .aware w o => w - o

/-- One raw `ATTENDEE` property: its value string and its optional `ROLE`
and `PARTSTAT` parameters. -/
structure RawAttendee where
  value : PyStr
  role : Option PyStr
  partstat : Option PyStr
deriving DecidableEq, Repr

/-- One raw VEVENT as the pipeline sees it: optional dtstart/dtend,
optional summary, location and organizer strings, and the attendee
properties (the Python code handles a single `attendee` and an
`attendee_list` identically per record, so both are one list here). -/
structure RawEvent where
  dtstart : Option DTValue
  dtend : Option DTValue
  summary : Option PyStr
  location : Option PyStr
  organizer : Option PyStr
  attendees : List RawAttendee
deriving DecidableEq, Repr

/-- An attendee record after extraction/filtering (the dicts collected in
`attendee_data`, lines 509-544). -/
structure AttRecord where
  email : PyStr
  role : Option PyStr
  partstat : Option PyStr
deriving DecidableEq, Repr

/-- An emitted attendee (the `attendee_info` dicts of line 563). -/
structure AttendeeInfo where
  name : Option PyStr
  email : PyStr
  partstat : Option PyStr
deriving DecidableEq, Repr

/-- A parsed event (the `event_data` dict), after timezone normalization,
attendee classification and duration computation. `duration` is in
minutes. -/
structure EventData where
  start : Option DTValue
  endv : Option DTValue
  is_all_day : Bool
  summary : PyStr
  location : PyStr
  required_attendees : List AttendeeInfo
  optional_attendees : List AttendeeInfo
  duration : Option Int
deriving DecidableEq, Repr

/-- Lines 500-506: organizer value lower-cased, with a (case-sensitively
detected) `mailto:` stripped first. -/
def organizerEmail (e : RawEvent) : Option PyStr :=
  e.organizer.map fun o => pyLower (stripMailto o)

/-- Line 520 / 537: an attendee is kept when its lower-cased email is not a
room email and differs from the organizer email (a `None` organizer never
matches any attendee, as in Python `x != None`). -/
def includeAttendee (roomEmails : List PyStr) (orgEmail : Option PyStr)
    (email : PyStr) : Bool :=
  !(roomEmails.contains (pyLower email)) &&
    (match orgEmail with
     | none => true
     | some o => !(pyLower email == o))

/-- Lines 509-544: map every raw attendee to its record (scheme-stripped
email, role, partstat) and keep those that pass `includeAttendee`. -/
def extractAttendees (roomEmails : List PyStr) (orgEmail : Option PyStr)
    (atts : List RawAttendee) : List AttRecord :=
  (atts.map fun a => ⟨stripMailto a.value, a.role, a.partstat⟩).filter
    fun r => includeAttendee roomEmails orgEmail r.email

/-- Lines 440-454, `resolve_attendee_name`: lower-case, trim, strip the
scheme, look the result up in the address book; on a miss return the input
unchanged. The directory is an association list (the Python dict). -/
def resolve_attendee_name (attendee_email : PyStr)
    (email_to_name : List (PyStr × PyStr)) : PyStr :=
  let e := pyStrip (pyLower attendee_email)
  let e2 := stripMailto e
  match email_to_name.lookup e2 with
  | some n => n
  | none => attendee_email

/-- Lines 556-561: a name is attached only when the directory is non-empty
(Python dict truthiness) and resolution returned something different from
the email itself. -/
def resolveName (dir : List (PyStr × PyStr)) (email : PyStr) : Option PyStr :=
  if dir.isEmpty then none
  else
    let r := resolve_attendee_name email dir
    if r == email then none else some r

/-- Line 563: build the emitted attendee dict. -/
def mkInfo (dir : List (PyStr × PyStr)) (r : AttRecord) : AttendeeInfo :=
  ⟨resolveName dir r.email, r.email, r.partstat⟩

/-- The role string `OPT-PARTICIPANT`. -/
def optRole : PyStr := "OPT-PARTICIPANT".toList

/-- Line 566: the classification test `role == 'OPT-PARTICIPANT'` (an
absent role compares unequal). -/
def isOpt (r : AttRecord) : Bool := r.role == some optRole

/-- The sort key of lines 572-573: `x['name'] if x['name'] else x['email']`. -/
def skey (a : AttendeeInfo) : PyStr := a.name.getD a.email

/-- Python string `<=`: code-point lexicographic, a proper prefix is
smaller. -/
def strLe : PyStr → PyStr → Bool
  | [], _ => true
  | _ :: _, [] => false
  | a :: as, b :: bs => if a = b then strLe as bs else decide (a < b)

/-- The boolean ordering used to sort each attendee bucket. -/
def attLE (a b : AttendeeInfo) : Bool := strLe (skey a) (skey b)

/-- Lines 572-573: Python's stable ascending sort on the name-else-email
key. -/
def sortAtts (l : List AttendeeInfo) : List AttendeeInfo := l.mergeSort attLE

/-- Lines 484-487: all-day iff a start value is present and is a `date`
(not a `datetime`). -/
def isAllDayOf : Option DTValue → Bool
  | some (.date _) => true
  | _ => false

/-- Lines 580-602: a naive datetime gets the configured timezone attached
(`replace(tzinfo=tz)`, same wall clock), an aware one is converted
(`astimezone(tz)`, same instant), a date passes through unchanged. `tz` is
the configured UTC offset in minutes. -/
def normDT (tz : Int) : DTValue → DTValue
  | .date d => .date d
  | .naive w => .aware w tz
  | .aware w o => .aware (w - o + tz) tz

/-- Python `x - y` on two temporal values, in minutes: defined between two
aware datetimes (instant difference), two naive datetimes (wall
difference) or two dates (day difference); every mixed combination raises
`TypeError`, modelled as `none`. -/
def subDT : DTValue → DTValue → Option Int
  | .aware w1 o1, .aware w2 o2 => some ((w1 - o1) - (w2 - o2))
  | .naive w1, .naive w2 => some (w1 - w2)
  | .date d1, .date d2 => some ((d1 - d2) * 1440)
  | _, _ => none

/-- Default summary string (line 494). -/
def defaultSummary : PyStr := "Без темы".toList

/-- Lines 477-611, the body of the per-event `try` block: extract fields,
classify/resolve/sort attendees, normalize the bounds, compute the
duration. Returns `none` exactly when the block raises (the `end - start`
subtraction on incompatible kinds), in which case line 613-615 drops the
event. -/
def parseEvent (tz : Int) (dir : List (PyStr × PyStr)) (rooms : List PyStr)
    (e : RawEvent) : Option EventData :=
  let allDay := isAllDayOf e.dtstart
  let org := organizerEmail e
  let records := extractAttendees rooms org e.attendees
  let reqs := sortAtts ((records.filter fun r => !(isOpt r)).map (mkInfo dir))
  let opts := sortAtts ((records.filter fun r => isOpt r).map (mkInfo dir))
  let summ := e.summary.getD defaultSummary
  let loc := e.location.getD []
  let start1 := e.dtstart.map (normDT tz)
  let end1 := e.dtend.map (normDT tz)
  match allDay, start1, end1 with
  | false, some s, some en =>
    match subDT en s with
    | some d => some ⟨some s, some en, false, summ, loc, reqs, opts, some d⟩
    | none => none
  | _, _, _ => some ⟨start1, end1, allDay, summ, loc, reqs, opts, none⟩

/-- The wall-clock minute count of Python's `datetime.max` (a model
constant; every datetime value the program can hold is strictly below
it). -/
def maxWall : Int := 10 ^ 13

/-- Lines 618-625, `sort_key`, as the instant (in minutes) of the aware
datetime it returns: a timed event's key is its start instant, an all-day
event's key is midnight of its date with the configured timezone attached,
a start-less event's key is `datetime.max` with the configured timezone
attached. (A naive start cannot occur after normalization; its key is its
wall clock.) -/
def sortKeyE (tz : Int) (ed : EventData) : Int :=
  match ed.start with
  | some (.aware w o) => w - o
  | some (.naive w) => w
  | some (.date d) => d * 1440 - tz
  | none => maxWall - tz

/-- The boolean ordering on parsed events used at line 627. -/
def eventLE (tz : Int) (a b : EventData) : Bool :=
  decide (sortKeyE tz a ≤ sortKeyE tz b)

/-- Lines 474-629 of `get_events_for_date` (with the already-fetched raw
events as input): parse each event, dropping the ones whose parsing
raises, then stable-sort by `sort_key`. -/
def get_events_for_date (tz : Int) (dir : List (PyStr × PyStr))
    (rooms : List PyStr) (events : List RawEvent) : List EventData :=
  (events.filterMap (parseEvent tz dir rooms)).mergeSort (eventLE tz)

-- Allow definitional unfolding of the sealed well-founded sort in
-- concrete evaluations below.
attribute [local semireducible] List.merge List.mergeSort

/-! ### Helper lemmas about the orderings -/

theorem strLe_total : ∀ s t : PyStr, (strLe s t || strLe t s) = true
  | [], _ => by simp [strLe]
  | _ :: _, [] => by simp [strLe]
  | a :: as, b :: bs => by
    rcases eq_or_ne a b with rfl | hab
    · simpa [strLe] using strLe_total as bs
    · rcases hab.lt_or_lt with h | h
      · simp [strLe, hab, h]
      · simp [strLe, hab, hab.symm, h]

theorem strLe_trans : ∀ s t u : PyStr,
    strLe s t = true → strLe t u = true → strLe s u = true
  | [], _, _, _, _ => by simp [strLe]
  | _ :: _, [], _, h1, _ => by simp [strLe] at h1
  | _ :: _, _ :: _, [], _, h2 => by simp [strLe] at h2
  | a :: as, b :: bs, c :: cs, h1, h2 => by
    rw [strLe] at h1 h2 ⊢
    by_cases hab : a = b
    · subst hab
      rw [if_pos rfl] at h1
      by_cases hac : a = c
      · subst hac
        rw [if_pos rfl] at h2 ⊢
        exact strLe_trans as bs cs h1 h2
      · rw [if_neg hac] at h2 ⊢
        exact h2
    · rw [if_neg hab] at h1
      have hab' : a < b := of_decide_eq_true h1
      by_cases hbc : b = c
      · subst hbc
        rw [if_neg hab]
        exact h1
      · rw [if_neg hbc] at h2
        have hbc' : b < c := of_decide_eq_true h2
        have hac : a < c := lt_trans hab' hbc'
        rw [if_neg (ne_of_lt hac)]
        exact decide_eq_true hac

theorem attLE_total (a b : AttendeeInfo) : (attLE a b || attLE b a) = true :=
  strLe_total _ _

theorem attLE_trans (a b c : AttendeeInfo) :
    attLE a b → attLE b c → attLE a c :=
  fun h1 h2 => strLe_trans _ _ _ h1 h2

theorem eventLE_total (tz : Int) (a b : EventData) :
    (eventLE tz a b || eventLE tz b a) = true := by
  simp [eventLE, le_total]

theorem eventLE_trans (tz : Int) (a b c : EventData) :
    eventLE tz a b → eventLE tz b c → eventLE tz a c := by
  simp only [eventLE, decide_eq_true_eq]
  exact le_trans

theorem sortAtts_sorted (l : List AttendeeInfo) :
    (sortAtts l).Pairwise (fun a b => attLE a b = true) :=
  List.sorted_mergeSort attLE_trans attLE_total l

theorem sortAtts_idem (l : List AttendeeInfo) :
    sortAtts (sortAtts l) = sortAtts l :=
  List.mergeSort_of_sorted (sortAtts_sorted l)

/-! ### Helper lemma: the shape of a successfully parsed event -/

/-- Unfolding of `parseEvent` on success: every field of the produced
`EventData` in terms of the raw event. -/
theorem parseEvent_spec (tz : Int) (dir : List (PyStr × PyStr))
    (rooms : List PyStr) (e : RawEvent) (ed : EventData)
    (hed : parseEvent tz dir rooms e = some ed) :
    ed.start = e.dtstart.map (normDT tz)
    ∧ ed.endv = e.dtend.map (normDT tz)
    ∧ ed.is_all_day = isAllDayOf e.dtstart
    ∧ ed.required_attendees = sortAtts
        (((extractAttendees rooms (organizerEmail e) e.attendees).filter
          fun r => !(isOpt r)).map (mkInfo dir))
    ∧ ed.optional_attendees = sortAtts
        (((extractAttendees rooms (organizerEmail e) e.attendees).filter
          fun r => isOpt r).map (mkInfo dir)) := by
  simp only [parseEvent] at hed
  split at hed
  · rename_i s en hday hstart hend
    split at hed
    · cases hed
      exact ⟨hstart.symm, hend.symm, hday.symm, rfl, rfl⟩
    · cases hed
  · cases hed
    exact ⟨rfl, rfl, rfl, rfl, rfl⟩

/-! ### Concrete fixtures (used by witnesses and counterexamples) -/

/-- Directory mapping `a@x.com` to `Alice` (spec §8 end-to-end scenario). -/
def dirA : List (PyStr × PyStr) := [("a@x.com".toList, "Alice".toList)]

/-- Resource-address set containing only `room@x.com`. -/
def roomsX : List PyStr := ["room@x.com".toList]

/-- The spec §8 end-to-end raw event: `Sync`, 09:00Z-09:30Z, attendees
`a@x.com` (no role) and `room@x.com`, organizer `b@x.com`. Wall clocks in
minutes: 540 = 09:00, 570 = 09:30. -/
def evSync : RawEvent :=
  ⟨some (.aware 540 0), some (.aware 570 0), some "Sync".toList, none,
   some "mailto:b@x.com".toList,
   [⟨"mailto:a@x.com".toList, none, none⟩,
    ⟨"mailto:room@x.com".toList, none, none⟩,
    ⟨"mailto:b@x.com".toList, none, none⟩]⟩

/-- The attendee the pipeline emits for `a@x.com` in `evSync`. -/
def aliceInfo : AttendeeInfo := ⟨some "Alice".toList, "a@x.com".toList, none⟩

/-- The parsed form of `evSync` at offset +3h (= 180 min): start
12:00+03:00, duration 30 min, only Alice required. -/
def edSync : EventData :=
  ⟨some (.aware 720 180), some (.aware 750 180), false, "Sync".toList, [],
   [aliceInfo], [], some 30⟩

/-! ### Helper lemmas about bucket membership -/

/-- Every member of either emitted bucket is the image under `mkInfo` of an
included attendee record. -/
theorem mem_bucket (tz : Int) (dir : List (PyStr × PyStr)) (rooms : List PyStr)
    (e : RawEvent) (ed : EventData) (a : AttendeeInfo)
    (hed : parseEvent tz dir rooms e = some ed)
    (ha : a ∈ ed.required_attendees ∨ a ∈ ed.optional_attendees) :
    ∃ r ∈ extractAttendees rooms (organizerEmail e) e.attendees,
      a = mkInfo dir r := by
  obtain ⟨-, -, -, hreq, hopt⟩ := parseEvent_spec tz dir rooms e ed hed
  rcases ha with h | h
  · rw [hreq] at h
    simp only [sortAtts, List.mem_mergeSort] at h
    obtain ⟨r, hr, rfl⟩ := List.mem_map.1 h
    exact ⟨r, (List.mem_filter.1 hr).1, rfl⟩
  · rw [hopt] at h
    simp only [sortAtts, List.mem_mergeSort] at h
    obtain ⟨r, hr, rfl⟩ := List.mem_map.1 h
    exact ⟨r, (List.mem_filter.1 hr).1, rfl⟩

/-- Every included attendee record passed the inclusion filter and carries
the scheme-stripped value of one of the raw attendees. -/
theorem mem_extractAttendees (rooms : List PyStr) (org : Option PyStr)
    (atts : List RawAttendee) (r : AttRecord)
    (hr : r ∈ extractAttendees rooms org atts) :
    includeAttendee rooms org r.email = true
    ∧ ∃ ra ∈ atts, r.email = stripMailto ra.value := by
  unfold extractAttendees at hr
  have h1 := (List.mem_filter.1 hr).2
  have h2 := (List.mem_filter.1 hr).1
  obtain ⟨ra, hra, rfl⟩ := List.mem_map.1 h2
  exact ⟨h1, ra, hra, rfl⟩

/-! ### Claims -/

/-- C8: if the normalized form (lowercased, trimmed, `mailto:`-stripped) of
an address has no entry in the directory, `resolve_attendee_name` returns
the input address unchanged. (Totality and absence of side effects are
inherent in the embedding: the source function only reads the dict and
every path returns.) -/
theorem C8_resolver_roundtrip (s : PyStr) (dir : List (PyStr × PyStr))
    (h : dir.lookup (stripMailto (pyStrip (pyLower s))) = none) :
    resolve_attendee_name s dir = s := by
  simp only [resolve_attendee_name, h]

/-- Witness for C8 at a concrete unresolvable address. -/
theorem C8_witness :
    resolve_attendee_name "b@y.com".toList dirA = "b@y.com".toList :=
  C8_resolver_roundtrip "b@y.com".toList dirA (by decide)

/-- C9: both attendee buckets of every successfully parsed event are sorted
ascending by the case-sensitive lexicographic order on
displayName-else-address (`attLE`), and the bucket sort is idempotent. -/
theorem C9_bucket_sorting (tz : Int) (dir : List (PyStr × PyStr))
    (rooms : List PyStr) (e : RawEvent) (ed : EventData)
    (l : List AttendeeInfo)
    (hed : parseEvent tz dir rooms e = some ed) :
    ed.required_attendees.Pairwise (fun a b => attLE a b = true)
    ∧ ed.optional_attendees.Pairwise (fun a b => attLE a b = true)
    ∧ sortAtts (sortAtts l) = sortAtts l := by
  obtain ⟨-, -, -, hreq, hopt⟩ := parseEvent_spec tz dir rooms e ed hed
  exact ⟨hreq ▸ sortAtts_sorted _, hopt ▸ sortAtts_sorted _, sortAtts_idem l⟩

-- Witness for C9 on the spec §8 scenario.
theorem C9_witness :
    edSync.required_attendees.Pairwise (fun a b => attLE a b = true)
    ∧ edSync.optional_attendees.Pairwise (fun a b => attLE a b = true)
    ∧ sortAtts (sortAtts [aliceInfo]) = sortAtts [aliceInfo] :=
  C9_bucket_sorting 180 dirA roomsX evSync edSync [aliceInfo] (by decide)

/-- C10: scheme stripping is case-sensitive. Any value that does not start
with the exact lowercase `mailto:` is left whole; in particular an
upper-case `MAILTO:`-prefixed value keeps its prefix, its lowercased
comparison key starts with `mailto:` and therefore never equals a
prefix-free (organizer or resource) address, and the attendee record
emitted for it retains the prefixed string as its address. -/
theorem C10_case_sensitive_stripping (rest : PyStr) :
    (∀ v : PyStr, mailtoLC.isPrefixOf v = false → stripMailto v = v)
    ∧ stripMailto (mailtoUC ++ rest) = mailtoUC ++ rest
    ∧ pyLower (mailtoUC ++ rest) = mailtoLC ++ pyLower rest
    ∧ (∀ s : PyStr, mailtoLC.isPrefixOf s = false →
        pyLower (mailtoUC ++ rest) ≠ s)
    ∧ (∀ role ps rooms org,
        (extractAttendees rooms org [⟨mailtoUC ++ rest, role, ps⟩]).all
          (fun r => r.email == mailtoUC ++ rest) = true) := by
  have hgen : ∀ v : PyStr, mailtoLC.isPrefixOf v = false → stripMailto v = v := by
    intro v hv
    simp [stripMailto, hv]
  have hMm : ('m' == 'M') = false := by decide
  have hne : mailtoLC.isPrefixOf (mailtoUC ++ rest) = false := by
    have h1 : mailtoUC ++ rest = 'M' :: ("AILTO:".toList ++ rest) := rfl
    have h2 : mailtoLC = 'm' :: "ailto:".toList := rfl
    rw [h1, h2]
    simp [List.isPrefixOf, hMm]
  have h3 : pyLower (mailtoUC ++ rest) = mailtoLC ++ pyLower rest := by
    have hmap : List.map Char.toLower mailtoUC = mailtoLC := by decide
    simp [pyLower, hmap]
  refine ⟨hgen, hgen _ hne, h3, ?_, ?_⟩
  · intro s hs heq
    rw [h3] at heq
    subst heq
    have hp0 := List.prefix_append mailtoLC (pyLower rest)
    have hp := List.isPrefixOf_iff_prefix.mpr hp0
    simp [hp] at hs
  · intro role ps rooms org
    simp only [extractAttendees, List.map_cons, List.map_nil, hgen _ hne]
    by_cases hinc :
        includeAttendee rooms org
          (⟨mailtoUC ++ rest, role, ps⟩ : AttRecord).email = true
    · simp [List.filter_cons, hinc]
    · simp [List.filter_cons, hinc]

/-- C3: no emitted attendee (in either bucket) has a comparison key
(lowercased scheme-stripped address, as the code normalizes it) that is in
the resource-address set or equal to the organizer's normalized address;
with an absent organizer the organizer test (`x != None` in Python) never
matches, which the `some o` hypothesis below makes vacuous. -/
theorem C3_organizer_resource_exclusion (tz : Int)
    (dir : List (PyStr × PyStr)) (rooms : List PyStr) (e : RawEvent)
    (ed : EventData) (a : AttendeeInfo)
    (hed : parseEvent tz dir rooms e = some ed)
    (ha : a ∈ ed.required_attendees ∨ a ∈ ed.optional_attendees) :
    rooms.contains (pyLower a.email) = false
    ∧ (∀ o, organizerEmail e = some o → pyLower a.email ≠ o) := by
  obtain ⟨r, hr, rfl⟩ := mem_bucket tz dir rooms e ed a hed ha
  obtain ⟨hinc, -⟩ :=
    mem_extractAttendees rooms (organizerEmail e) e.attendees r hr
  simp only [includeAttendee, Bool.and_eq_true, Bool.not_eq_true'] at hinc
  refine ⟨hinc.1, ?_⟩
  intro o ho
  have h2 := hinc.2
  rw [ho] at h2
  simp only [Bool.not_eq_true', beq_eq_false_iff_ne, ne_eq] at h2
  exact h2

-- Witness for C3 on the spec §8 scenario (organizer b@x.com, room
-- room@x.com, emitted attendee Alice).
theorem C3_witness :
    roomsX.contains (pyLower aliceInfo.email) = false
    ∧ (∀ o, organizerEmail evSync = some o → pyLower aliceInfo.email ≠ o) :=
  C3_organizer_resource_exclusion 180 dirA roomsX evSync edSync aliceInfo
    (by decide) (Or.inl (by decide))

/-- Raw event whose attendee value is `mailto:Alice@X.com` (mixed-case
address). -/
def evCase : RawEvent :=
  ⟨some (.naive 540), none, none, none, none,
   [⟨"mailto:Alice@X.com".toList, none, none⟩]⟩

/-- The parsed form of `evCase` at offset +3h. -/
def edCase : EventData :=
  ⟨some (.aware 540 180), none, false, defaultSummary, [],
   [⟨none, "Alice@X.com".toList, none⟩], [], none⟩

/-- C4 counterexample: the emitted address for attendee value
`mailto:Alice@X.com` is `Alice@X.com` — original casing preserved, not the
normalized lowercase form the claim requires. -/
theorem C4_counterexample :
    (parseEvent 180 [] [] evCase).map
        (fun ed => ed.required_attendees.map AttendeeInfo.email)
      = some ["Alice@X.com".toList]
    ∧ pyLower "Alice@X.com".toList ≠ "Alice@X.com".toList := by
  decide

/-- C4 (amended): every emitted AttendeeRef address is the raw contact
value with an exact lowercase `mailto:` prefix stripped, original casing
preserved (lowercasing happens only on comparison keys). -/
theorem C4_amended (tz : Int) (dir : List (PyStr × PyStr))
    (rooms : List PyStr) (e : RawEvent) (ed : EventData) (a : AttendeeInfo)
    (hed : parseEvent tz dir rooms e = some ed)
    (ha : a ∈ ed.required_attendees ∨ a ∈ ed.optional_attendees) :
    ∃ ra ∈ e.attendees, a.email = stripMailto ra.value := by
  obtain ⟨r, hr, rfl⟩ := mem_bucket tz dir rooms e ed a hed ha
  obtain ⟨-, ra, hra, hv⟩ :=
    mem_extractAttendees rooms (organizerEmail e) e.attendees r hr
  exact ⟨ra, hra, hv⟩

-- Witness for C4 (amended) on `evCase`.
theorem C4_witness :
    ∃ ra ∈ evCase.attendees,
      (⟨none, "Alice@X.com".toList, none⟩ : AttendeeInfo).email
        = stripMailto ra.value :=
  C4_amended 180 [] [] evCase edCase ⟨none, "Alice@X.com".toList, none⟩
    (by decide) (Or.inl (by decide))

/-- C5: the optional bucket contains exactly the included records whose
role is `OPT-PARTICIPANT`, the required bucket exactly all the others
(including records with an absent role), and the two buckets together
partition the included records — each included record lands in exactly one
bucket. -/
theorem C5_role_buckets (tz : Int) (dir : List (PyStr × PyStr))
    (rooms : List PyStr) (e : RawEvent) (ed : EventData)
    (hed : parseEvent tz dir rooms e = some ed) :
    ed.optional_attendees.Perm
      (((extractAttendees rooms (organizerEmail e) e.attendees).filter
        fun r => isOpt r).map (mkInfo dir))
    ∧ ed.required_attendees.Perm
      (((extractAttendees rooms (organizerEmail e) e.attendees).filter
        fun r => !(isOpt r)).map (mkInfo dir))
    ∧ (ed.required_attendees ++ ed.optional_attendees).Perm
      ((extractAttendees rooms (organizerEmail e) e.attendees).map
        (mkInfo dir)) := by
  obtain ⟨-, -, -, hreq, hopt⟩ := parseEvent_spec tz dir rooms e ed hed
  have popt : ed.optional_attendees.Perm
      (((extractAttendees rooms (organizerEmail e) e.attendees).filter
        fun r => isOpt r).map (mkInfo dir)) :=
    hopt ▸ List.mergeSort_perm _ _
  have preq : ed.required_attendees.Perm
      (((extractAttendees rooms (organizerEmail e) e.attendees).filter
        fun r => !(isOpt r)).map (mkInfo dir)) :=
    hreq ▸ List.mergeSort_perm _ _
  refine ⟨popt, preq, ?_⟩
  have hpart :
      ((extractAttendees rooms (organizerEmail e) e.attendees).filter
          (fun r => !(isOpt r))
        ++ (extractAttendees rooms (organizerEmail e) e.attendees).filter
          (fun r => isOpt r)).Perm
        (extractAttendees rooms (organizerEmail e) e.attendees) := by
    simpa [Bool.not_not] using
      List.filter_append_perm (fun r => !(isOpt r))
        (extractAttendees rooms (organizerEmail e) e.attendees)
  have step3 := hpart.map (mkInfo dir)
  rw [List.map_append] at step3
  exact (preq.append popt).trans step3

/-- Raw event with one `OPT-PARTICIPANT` attendee and one attendee with no
role. -/
def evRoles : RawEvent :=
  ⟨some (.naive 540), none, none, none, none,
   [⟨"opt@x.com".toList, some optRole, none⟩,
    ⟨"req@x.com".toList, none, none⟩]⟩

/-- The parsed form of `evRoles` at offset +3h. -/
def edRoles : EventData :=
  ⟨some (.aware 540 180), none, false, defaultSummary, [],
   [⟨none, "req@x.com".toList, none⟩], [⟨none, "opt@x.com".toList, none⟩],
   none⟩

-- Witness for C5 on `evRoles`.
theorem C5_witness :
    edRoles.optional_attendees.Perm
      (((extractAttendees [] (organizerEmail evRoles) evRoles.attendees).filter
        fun r => isOpt r).map (mkInfo []))
    ∧ edRoles.required_attendees.Perm
      (((extractAttendees [] (organizerEmail evRoles) evRoles.attendees).filter
        fun r => !(isOpt r)).map (mkInfo []))
    ∧ (edRoles.required_attendees ++ edRoles.optional_attendees).Perm
      ((extractAttendees [] (organizerEmail evRoles) evRoles.attendees).map
        (mkInfo [])) :=
  C5_role_buckets 180 [] [] evRoles edRoles (by decide)

/-- C6: a timezone-naive start/end keeps its wall clock and gets the
configured timezone attached; a timezone-aware one keeps its instant and is
converted to the configured timezone; a calendar date passes through
unchanged; and the parsed event's bounds are exactly the raw bounds mapped
through this normalization. -/
theorem C6_timezone_normalization (tz w o d : Int)
    (dir : List (PyStr × PyStr)) (rooms : List PyStr) (e : RawEvent)
    (ed : EventData) (hed : parseEvent tz dir rooms e = some ed) :
    normDT tz (.naive w) = .aware w tz
    ∧ normDT tz (.aware w o) = .aware (w - o + tz) tz
    ∧ (normDT tz (.aware w o)).instant = (DTValue.aware w o).instant
    ∧ normDT tz (.date d) = .date d
    ∧ ed.start = e.dtstart.map (normDT tz)
    ∧ ed.endv = e.dtend.map (normDT tz) := by
  obtain ⟨h1, h2, -, -, -⟩ := parseEvent_spec tz dir rooms e ed hed
  refine ⟨rfl, rfl, ?_, rfl, h1, h2⟩
  simp only [normDT, DTValue.instant]
  omega

-- Witness for C6: the spec example 2025-03-01T09:00:00Z at +3h becomes
-- wall clock 12:00 with offset +03:00 (540 → 540 - 0 + 180 = 720 minutes).
theorem C6_witness :
    normDT 180 (.naive 540) = .aware 540 180
    ∧ normDT 180 (.aware 540 0) = .aware (540 - 0 + 180) 180
    ∧ (normDT 180 (.aware 540 0)).instant = (DTValue.aware 540 0).instant
    ∧ normDT 180 (.date 5) = .date 5
    ∧ edSync.start = evSync.dtstart.map (normDT 180)
    ∧ edSync.endv = evSync.dtend.map (normDT 180) :=
  C6_timezone_normalization 180 540 0 5 dirA roomsX evSync edSync (by decide)

/-- Raw event with no start value at all. -/
def evNoStart : RawEvent := ⟨none, none, some "A".toList, none, none, []⟩

/-- Raw timed event (naive 09:00 wall clock). -/
def evTimed : RawEvent := ⟨some (.naive 540), none, some "B".toList, none, none, []⟩

/-- C1 counterexample: a batch holding an event with no start at all yields
two output events, and the second one is the start-less event — it is kept
(sorted last), not dropped as the claim states. -/
theorem C1_counterexample :
    (get_events_for_date 180 [] [] [evNoStart, evTimed]).map EventData.start
      = [some (.aware 540 180), none] := by decide

/-- C1 (amended): a raw event that is missing its start value entirely is
NOT dropped — parsing it always succeeds and it is kept in the output;
failures are isolated per event: every raw event whose parsing succeeds
contributes its parsed form to the output, and the output has exactly one
entry per successfully parsed raw event (the batch is never aborted). -/
theorem C1_missing_start_kept (tz : Int) (dir : List (PyStr × PyStr))
    (rooms : List PyStr) (events : List RawEvent) :
    (∀ e ∈ events, e.dtstart = none →
        (parseEvent tz dir rooms e).isSome = true)
    ∧ (∀ e ∈ events, ∀ ed, parseEvent tz dir rooms e = some ed →
        ed ∈ get_events_for_date tz dir rooms events)
    ∧ (get_events_for_date tz dir rooms events).length
        = events.countP (fun e => (parseEvent tz dir rooms e).isSome) := by
  refine ⟨?_, ?_, ?_⟩
  · intro e he h
    cases hd : e.dtend <;>
      simp [parseEvent, h, hd, isAllDayOf]
  · intro e he ed hed
    unfold get_events_for_date
    rw [List.mem_mergeSort]
    exact List.mem_filterMap.2 ⟨e, he, hed⟩
  · unfold get_events_for_date
    rw [List.length_mergeSort, List.length_filterMap_eq_countP]

-- Witness for C1 (amended) on `evNoStart`.
theorem C1_witness :
    (parseEvent 180 [] [] evNoStart).isSome = true :=
  (C1_missing_start_kept 180 [] [] [evNoStart]).1 evNoStart (by decide) rfl

/-- Raw timed event whose end (09:30 wall, +3h) precedes its start (10:00
wall, +3h). -/
def evNeg : RawEvent :=
  ⟨some (.aware 600 180), some (.aware 570 180), none, none, none, []⟩

/-- C2 counterexample: a non-all-day event with both bounds present whose
end precedes its start is given duration `-30` minutes — still
`end - start`, but negative, refuting the non-negativity part of the
claim. -/
theorem C2_counterexample :
    (parseEvent 180 [] [] evNeg).map
        (fun ed => (ed.is_all_day, ed.start.isSome, ed.endv.isSome, ed.duration))
      = some (false, true, true, some (-30))
    ∧ ((-30 : Int) < 0) := by
  exact ⟨by decide, by decide⟩

/-- C2 (amended): for every successfully parsed event, when `isAllDay` is
false and both bounds are present the derived duration equals `end - start`
(and the subtraction is defined; the value may be negative when end
precedes start); for an all-day event, and whenever either bound is
missing, the duration is absent. -/
theorem C2_duration (tz : Int) (dir : List (PyStr × PyStr))
    (rooms : List PyStr) (e : RawEvent) (ed : EventData)
    (hed : parseEvent tz dir rooms e = some ed) :
    (ed.is_all_day = false → ∀ s en, ed.start = some s → ed.endv = some en →
        ed.duration = subDT en s ∧ (subDT en s).isSome = true)
    ∧ (ed.is_all_day = true → ed.duration = none)
    ∧ ((ed.start = none ∨ ed.endv = none) → ed.duration = none) := by
  simp only [parseEvent] at hed
  split at hed
  · rename_i s en hday hstart hend
    split at hed
    · rename_i d hd
      cases hed
      refine ⟨?_, ?_, ?_⟩
      · intro _ s' en' hs hen
        cases hs
        cases hen
        exact ⟨hd.symm, by simp [hd]⟩
      · intro hcontra
        cases hcontra
      · rintro (h | h) <;> cases h
    · cases hed
  · rename_i hmatch
    cases hed
    refine ⟨?_, fun _ => rfl, fun _ => rfl⟩
    intro hday s en hs hen
    exact (hmatch s en hday hs hen).elim

/-- Raw event 09:00Z-09:30Z, no attendees. -/
def evDur : RawEvent :=
  ⟨some (.aware 600 0), some (.aware 630 0), none, none, none, []⟩

/-- The parsed form of `evDur` at offset +3h. -/
def edDur : EventData :=
  ⟨some (.aware 780 180), some (.aware 810 180), false, defaultSummary, [],
   [], [], some 30⟩

-- Witness for C2 (amended) on `evDur`.
theorem C2_witness :
    edDur.duration = subDT (.aware 810 180) (.aware 780 180)
    ∧ (subDT (.aware 810 180) (.aware 780 180)).isSome = true :=
  (C2_duration 180 [] [] evDur edDur (by decide)).1 rfl
    (.aware 780 180) (.aware 810 180) rfl rfl

/-- C7: the assembled sequence is sorted ascending by `sort_key` (midnight
of the date, timezone attached, for an all-day event; the start instant for
a timed event; the `datetime.max` key for a start-less event); it is a
permutation of the parsed events; ties keep input order (the sub-sequence of
events at each key value equals the input-order sub-sequence — Python's
sort is stable); and, provided every event that has a start keys strictly
below the `datetime.max` key (true of every representable datetime), every
start-less event comes after every event with a usable start. -/
theorem C7_assembler_ordering (tz : Int) (dir : List (PyStr × PyStr))
    (rooms : List PyStr) (events : List RawEvent)
    (hbound : ∀ ed ∈ events.filterMap (parseEvent tz dir rooms),
        ed.start.isSome = true → sortKeyE tz ed < maxWall - tz) :
    (get_events_for_date tz dir rooms events).Pairwise
      (fun a b => sortKeyE tz a ≤ sortKeyE tz b)
    ∧ (get_events_for_date tz dir rooms events).Perm
        (events.filterMap (parseEvent tz dir rooms))
    ∧ (∀ k : Int,
        (get_events_for_date tz dir rooms events).filter
            (fun ed => sortKeyE tz ed == k)
          = (events.filterMap (parseEvent tz dir rooms)).filter
            (fun ed => sortKeyE tz ed == k))
    ∧ (∀ i j : Fin (get_events_for_date tz dir rooms events).length,
        i < j →
        ((get_events_for_date tz dir rooms events).get i).start = none →
        ((get_events_for_date tz dir rooms events).get j).start = none) := by
  have hsorted0 : (get_events_for_date tz dir rooms events).Pairwise
      (fun a b => eventLE tz a b = true) :=
    List.sorted_mergeSort (eventLE_trans tz) (eventLE_total tz) _
  have hsorted : (get_events_for_date tz dir rooms events).Pairwise
      (fun a b => sortKeyE tz a ≤ sortKeyE tz b) :=
    hsorted0.imp fun h => by simpa [eventLE, decide_eq_true_eq] using h
  have hperm : (get_events_for_date tz dir rooms events).Perm
      (events.filterMap (parseEvent tz dir rooms)) :=
    List.mergeSort_perm _ _
  refine ⟨hsorted, hperm, ?_, ?_⟩
  · intro k
    have hpw : ((events.filterMap (parseEvent tz dir rooms)).filter
        (fun ed => sortKeyE tz ed == k)).Pairwise
        (fun a b => eventLE tz a b = true) := by
      apply List.pairwise_of_forall_mem_list
      intro a hma b hmb
      have ha := (List.mem_filter.1 hma).2
      have hb := (List.mem_filter.1 hmb).2
      simp only [beq_iff_eq] at ha hb
      simp [eventLE, ha, hb]
    have hsub : List.Sublist
        ((events.filterMap (parseEvent tz dir rooms)).filter
          (fun ed => sortKeyE tz ed == k))
        (get_events_for_date tz dir rooms events) :=
      List.sublist_mergeSort (eventLE_trans tz) (eventLE_total tz) hpw
        (List.filter_sublist _)
    have hsub2 : List.Sublist
        ((events.filterMap (parseEvent tz dir rooms)).filter
          (fun ed => sortKeyE tz ed == k))
        ((get_events_for_date tz dir rooms events).filter
          (fun ed => sortKeyE tz ed == k)) := by
      have h := hsub.filter (fun ed => sortKeyE tz ed == k)
      simpa using h
    have hlen : ((get_events_for_date tz dir rooms events).filter
        (fun ed => sortKeyE tz ed == k)).length
        = ((events.filterMap (parseEvent tz dir rooms)).filter
          (fun ed => sortKeyE tz ed == k)).length :=
      (hperm.filter _).length_eq
    exact (hsub2.eq_of_length hlen.symm).symm
  · intro i j hij hi
    cases hstart : ((get_events_for_date tz dir rooms events).get j).start with
    | none => rfl
    | some s =>
      exfalso
      have hmem : (get_events_for_date tz dir rooms events).get j
          ∈ get_events_for_date tz dir rooms events := List.get_mem _ j.1 j.2
      have hmem2 := hperm.mem_iff.1 hmem
      have hbj : ((get_events_for_date tz dir rooms events).get j).start.isSome
          = true := by
        rw [hstart]
        rfl
      have hlt := hbound _ hmem2 hbj
      have hle := List.pairwise_iff_get.1 hsorted i j hij
      have hkeyi : sortKeyE tz ((get_events_for_date tz dir rooms events).get i)
          = maxWall - tz := by
        unfold sortKeyE
        rw [hi]
      omega

/-- All-day raw event on day 0. -/
def evAllDay : RawEvent := ⟨some (.date 0), none, some "D".toList, none, none, []⟩

/-- Timed raw event at naive 10:30 wall clock. -/
def evTen30 : RawEvent := ⟨some (.naive 630), none, some "C".toList, none, none, []⟩

-- Witness for C7 on the spec ordering scenario (+3h: one all-day event,
-- 09:00, 10:30, and one start-less event).
theorem C7_witness :
    (get_events_for_date 180 [] [] [evNoStart, evTen30, evTimed, evAllDay]).Pairwise
      (fun a b => sortKeyE 180 a ≤ sortKeyE 180 b) :=
  (C7_assembler_ordering 180 [] [] [evNoStart, evTen30, evTimed, evAllDay]
    (by decide)).1

/-- Witness for C10 at `rest = "b@x.com"`. -/
theorem C10_witness :
    pyLower (mailtoUC ++ "b@x.com".toList) ≠ "b@x.com".toList
    ∧ stripMailto (mailtoUC ++ "b@x.com".toList)
        = mailtoUC ++ "b@x.com".toList :=
  ⟨(C10_case_sensitive_stripping "b@x.com".toList).2.2.2.1 "b@x.com".toList
      (by decide),
   (C10_case_sensitive_stripping "b@x.com".toList).2.1⟩

end PrintSchedule
